import Mathlib

/-!
Shallow embedding of the client-side data/session layer of the reviewed
mobile learning-platform app: the web-service RPC wrapper (`$mmWS.call`),
the sites manager (`$mmSitesManager`: `checkSite`, `getUserToken`,
`newSite`, `loadSite`, `getMoodleFilePath`, `getSiteURL`, the
`checkMobileLocalPlugin` capability probe) and the browser-SSO callback
validator (`validateBrowserSSOLogin`).

External collaborators (`$http`, `$mmConfig`, the durable store, the
filesystem, the network probe, the `md5` library) are modelled as explicit
environment records or function parameters; promise outcomes are modelled
by the `JSSettle` sum.  JavaScript strings are Lean `String`s; the string
helpers below reproduce the exact JavaScript operations used by the source
(`indexOf(x) > -1`, `indexOf(x) === 0`, first-occurrence `replace`, the
anchored case-insensitive scheme regex).
-/

/-- JavaScript `pat.every-char-equals-prefix-of s` check: `true` when `pat`
is a prefix of `s` (used to embed `s.indexOf(pat) === 0` and the anchored
part of substring search). -/
def charsPrefix : List Char → List Char → Bool
  | [], _ => true
  | _ :: _, [] => false
  | p :: ps, c :: cs => if p = c then charsPrefix ps cs else false

/-- Case-insensitive prefix check for a lowercase pattern, embedding the
anchored case-insensitive regex `/^http(s)?\:\/\//i` of the source. -/
def caseInsensPrefix : List Char → List Char → Bool
  | [], _ => true
  | _ :: _, [] => false
  | p :: ps, c :: cs => if p = Char.toLower c then caseInsensPrefix ps cs else false

/-- JavaScript `hay.indexOf(pat) > -1`: the pattern occurs somewhere in the
list. -/
def listHasSub (pat : List Char) : List Char → Bool
  | [] => pat.isEmpty
  | c :: rest => if charsPrefix pat (c :: rest) then true else listHasSub pat rest

/-- JavaScript `hay.indexOf(pat) > -1` on strings. -/
def strHasSub (hay pat : String) : Bool :=
  listHasSub pat.data hay.data

/-- JavaScript `s.indexOf(pat) === 0` on strings. -/
def strStartsWith (s pat : String) : Bool :=
  charsPrefix pat.data s.data

/-- JavaScript `String.prototype.replace` with a plain-string pattern
replaces only the first occurrence; list worker. -/
def replaceFirstList (pat rep : List Char) : List Char → List Char
  | [] => []
  | c :: rest =>
    if charsPrefix pat (c :: rest) then rep ++ (c :: rest).drop pat.length
    else c :: replaceFirstList pat rep rest

/-- JavaScript `s.replace(pat, rep)` with a plain-string pattern (first
occurrence only; the string is returned unchanged when the pattern does not
occur). -/
def replaceFirst (s pat rep : String) : String :=
  ⟨replaceFirstList pat.data rep.data s.data⟩

/-- Fuel-indexed worker of JavaScript `String.prototype.split` with a
non-empty plain-string separator: scan left to right, ending the current
segment at each (non-overlapping) occurrence of the separator.  The fuel
is the length of the scanned list, so it never runs out. -/
def jsSplitGo (sep : List Char) : Nat → List Char → List (List Char)
  | _, [] => [[]]
  | 0, s => [s]
  | fuel + 1, c :: rest =>
    if sep.isEmpty = false && charsPrefix sep (c :: rest) then
      [] :: jsSplitGo sep fuel ((c :: rest).drop sep.length)
    else
      match jsSplitGo sep fuel rest with
      | [] => [[c]]
      | seg :: segs => (c :: seg) :: segs

/-- JavaScript `s.split(sep)` for a non-empty plain-string separator. -/
def jsSplit (s sep : String) : List String :=
  (jsSplitGo sep.data s.data.length s.data).map (fun l => ⟨l⟩)

/-- Outcome of a settled AngularJS promise: either resolved with a value or
rejected with an error message (the string passed to `deferred.reject` or
the translation key passed to `$mmLang.translateErrorAndReject`). -/
inductive JSSettle (α : Type) where
  | resolved (value : α)
  | rejected (err : String)
deriving DecidableEq

/-! ### `checkMobileLocalPlugin` (ws.js lines 358-407) -/

/-- JSON body answered by the `/local/mobile/check.php` capability
endpoint.  `code` is `none` when the response carries no `code` field
(`typeof(response.code) == "undefined"`); otherwise it holds the
`parseInt(response.code, 10)` value.  `error` is the truthiness of the
`error` flag. -/
structure CheckResp where
  code : Option Int
  error : Bool

/-- Environment of the capability probe: the configured extended service
name (`$mmConfig.get('wsextservice')`, `none` when the config read
rejects) and the HTTP POST to `siteurl + '/local/mobile/check.php'`
(`none` models a transport-level `.error` callback). -/
structure ProbeEnv where
  wsextservice : Option String
  checkEndpoint : String → Option CheckResp

/-- Embedding of `checkMobileLocalPlugin(siteurl)` (ws.js lines 358-407).
`services` is the module-level process-lifetime cache mapping a site URL to
its resolved service name; the returned pair is the settled promise value
and the cache after the call (`services[siteurl] = service` on a code-0
style success without error flag). -/
def checkMobileLocalPlugin (env : ProbeEnv) (services : String → Option String)
    (siteurl : String) : JSSettle Int × (String → Option String) :=
  match env.wsextservice with
  | none => (.resolved 0, services)
  | some service =>
    match env.checkEndpoint siteurl with
    | none => (.resolved 0, services)
    | some response =>
      match response.code with
      | none => (.rejected "mm.core.unexpectederror", services)
      | some code =>
        if response.error then
          if code = 1 then (.rejected "mm.login.siteinmaintenance", services)
          else if code = 2 then (.rejected "mm.login.webservicesnotenabled", services)
          else if code = 3 then (.resolved 0, services)
          else if code = 4 then (.rejected "mm.login.mobileservicesnotenabled", services)
          else (.rejected "mm.core.unexpectederror", services)
        else
          (.resolved code, fun u => if u = siteurl then some service else services u)

/-! ### `checkSite` (ws.js lines 296-335) -/

/-- Modelled from the spec: `$mmUtil.formatURL` is not part of the excerpt;
per the spec it "normalizes URL (adds scheme if absent)", with the examples
showing `https` as the default scheme, so a URL carrying neither an
`http://` nor an `https://` scheme (case-insensitively) is prefixed with
`https://` and a URL that already has a scheme is left unchanged. -/
def formatURL (url : String) : String :=
  if caseInsensPrefix "https://".data url.data || caseInsensPrefix "http://".data url.data
  then url
  else "https://" ++ url

/-- Embedding of `siteurl.replace(/^http(s)?\:\/\//i, protocol)` (ws.js
line 310): the anchored case-insensitive scheme, when present, is replaced
by `protocol`. -/
def replaceProtocol (siteurl protocol : String) : String :=
  if caseInsensPrefix "https://".data siteurl.data then protocol ++ ⟨siteurl.data.drop 8⟩
  else if caseInsensPrefix "http://".data siteurl.data then protocol ++ ⟨siteurl.data.drop 7⟩
  else siteurl

/-- Environment of `checkSite`: `$mmUtil.isValidURL` (not part of the
excerpt, kept abstract), the `siteExists` HEAD probe of
`siteurl + '/login/token.php'` (`true` when the probe promise resolves),
and the capability-probe environment used by `checkMobileLocalPlugin`. -/
structure CSEnv where
  isValidURL : String → Bool
  probe : String → Bool
  plugin : ProbeEnv

/-- Settled outcome of `checkSite`; `fuelExhausted` is an artifact of the
fuel parameter bounding the scheme-fallback recursion and is proved
unreachable for fuel at least 2. -/
inductive CSResult where
  | resolved (siteurl : String) (code : Int)
  | rejected (err : String)
  | fuelExhausted
deriving DecidableEq

/-- Embedding of `checkSite(siteurl, protocol)` (ws.js lines 296-335).  The
second component of the result records, in order, the URLs on which the
`siteExists` HEAD probe was attempted.  The recursion of the source
(`self.checkSite(siteurl, "http://")` on HEAD failure of an `https` URL) is
bounded by the `fuel` parameter. -/
def checkSite (env : CSEnv) (services : String → Option String) :
    Nat → String → Option String → CSResult × List String
  | 0, _, _ => (.fuelExhausted, [])
  | fuel + 1, siteurl0, protocol =>
    let siteurl1 := formatURL siteurl0
    if !(strHasSub siteurl1 "://localhost") && !(env.isValidURL siteurl1) then
      (.rejected "mm.login.invalidsite", [])
    else
      let protocolV := protocol.getD "https://"
      let siteurl2 := replaceProtocol siteurl1 protocolV
      if env.probe siteurl2 then
        match (checkMobileLocalPlugin env.plugin services siteurl2).1 with
        | .resolved code => (.resolved siteurl2 code, [siteurl2])
        | .rejected e => (.rejected e, [siteurl2])
      else
        if strStartsWith siteurl2 "https://" then
          let rec1 := checkSite env services fuel siteurl2 (some "http://")
          (rec1.1, siteurl2 :: rec1.2)
        else
          (.rejected "mm.core.cannotconnect", [siteurl2])

/-! ### `getUserToken` (ws.js lines 421-462) and `determineService`
(ws.js lines 505-528) -/

/-- JSON body answered by the `siteurl + '/login/token.php'` endpoint, or a
transport-level failure (`netError`, the `.error` callback). -/
inductive TokenResp where
  | netError
  | ok (token : Option String) (error : Option String) (errorcode : Option String)

/-- Environment of `getUserToken`: the `services` capability cache read by
`determineService`, the configured default service
(`$mmConfig.get('wsservice')`, `none` when the read rejects), and the POST
of `{username, password, service}` to the token endpoint. -/
structure GUTEnv where
  services : String → Option String
  wsservice : Option String
  endpoint : String → String → String → String → TokenResp

/-- Embedding of `determineService(siteurl)` (ws.js lines 505-528): try the
cache under the `http://` spelling, then under the `https://` spelling,
then fall back to the configured default service. -/
def determineService (services : String → Option String) (wsservice : Option String)
    (siteurl : String) : Option String :=
  let u1 := replaceFirst siteurl "https://" "http://"
  match services u1 with
  | some s => some s
  | none =>
    let u2 := replaceFirst u1 "http://" "https://"
    match services u2 with
    | some s => some s
    | none => wsservice

/-- Settled outcome of `getUserToken`.  `crash` models an uncaught
exception thrown inside the `$http.post(...).success` callback, after
which the deferred promise never settles. -/
inductive GUTResult where
  | resolved (token : String)
  | rejected (err : String)
  | crash
deriving DecidableEq

/-- Embedding of `getUserToken(siteurl, username, password, retry)` (ws.js
lines 421-462).  In the `!retry && response.errorcode == "requirecorrectaccess"`
branch the source computes the `www.`-prefixed URL and then executes
`logindata.siteurl = siteurl;` (ws.js line 445); `logindata` is declared
nowhere in the sources, so this line throws a `ReferenceError` inside the
success callback: the recursive retry call on the next source line
(ws.js line 447) is never reached and the promise never settles.  The
branch is therefore embedded as `GUTResult.crash`. -/
def getUserToken (env : GUTEnv) (siteurl username password : String) (retry : Bool) :
    GUTResult :=
  match determineService env.services env.wsservice siteurl with
  | none => .rejected "configerror"
  | some service =>
    match env.endpoint siteurl username password service with
    | .netError => .rejected "mm.core.cannotconnect"
    | .ok token error errorcode =>
      match token with
      | some t => .resolved t
      | none =>
        match error with
        | some e =>
          if retry = false ∧ errorcode = some "requirecorrectaccess" then
            .crash
          else .rejected e
        | none => .rejected "mm.login.invalidaccount"

/-! ### Sites store, `newSite`, `loadSite`, `login`, `getSiteURL`
(ws.js lines 474-497, 537-544, 557-564, 575-581, 736-741, 786-800) -/

/-- One entry of the `functions` array of the server-reported site
metadata; only its `name` is inspected by the source. -/
structure SiteFunction where
  name : String
deriving DecidableEq

/-- Server-reported site metadata (`infos`), as used by the sites manager:
the reported `username` (hashed into the site id) and the advertised
web-service function list. -/
structure SiteInfo where
  username : String
  functions : List SiteFunction
deriving DecidableEq

/-- A record of the persistent `sites` store (`mmCoreSitesStore`):
`{id, siteurl, token, infos}` exactly as written by `addSite`. -/
structure SiteRecord where
  id : String
  siteurl : String
  token : String
  infos : SiteInfo
deriving DecidableEq

/-- The persistent site store: the `sites` collection plus the single-row
`current_site` collection (`none` when no current-site row exists). -/
structure SitesDB where
  sites : List SiteRecord
  currentSite : Option String
deriving DecidableEq

/-- Modelled from the spec: the durable keyed store (`db.insert` of the
`$mmApp` collaborator, not part of the excerpt) performs "a single atomic
upsert keyed by record id", so inserting a record replaces any record with
the same id. -/
def dbInsertSite (sites : List SiteRecord) (r : SiteRecord) : List SiteRecord :=
  r :: sites.filter (fun s => !(s.id == r.id))

/-- JavaScript `db.get(mmCoreSitesStore, siteid)`: look the record up by
its key. -/
def dbGetSite (sites : List SiteRecord) (siteid : String) : Option SiteRecord :=
  sites.find? (fun s => s.id == siteid)

/-- Embedding of `addSite(id, siteurl, token, infos)` (ws.js lines
557-564). -/
def addSite (db : SitesDB) (id siteurl token : String) (infos : SiteInfo) : SitesDB :=
  { db with sites := dbInsertSite db.sites ⟨id, siteurl, token, infos⟩ }

/-- Embedding of `login(siteid)` (ws.js lines 736-741): upsert the
single-row current-site pointer. -/
def login (db : SitesDB) (siteid : String) : SitesDB :=
  { db with currentSite := some siteid }

/-- The active `$mmSite` session held in memory (set by `$mmSite.setSite`). -/
structure ActiveSite where
  id : String
  siteurl : String
  token : String
  infos : SiteInfo
deriving DecidableEq

/-- Modelled from the spec: the `$mmSite` service is not part of the
excerpt; per the spec the session manager keeps a candidate (url, token)
pair while fetching metadata and an active session that `setSite`
(re)activates; `deleteCandidateSite` discards the candidate. -/
structure MMSiteState where
  candidate : Option (String × String)
  active : Option ActiveSite
deriving DecidableEq

/-- Modelled from the spec: `$mmSite.setCandidateSite(siteurl, token)`
records the not-yet-validated candidate session. -/
def setCandidateSite (mm : MMSiteState) (siteurl token : String) : MMSiteState :=
  { mm with candidate := some (siteurl, token) }

/-- Modelled from the spec: `$mmSite.deleteCandidateSite()` discards the
candidate session. -/
def deleteCandidateSite (mm : MMSiteState) : MMSiteState :=
  { mm with candidate := none }

/-- Modelled from the spec: `$mmSite.setSite(id, siteurl, token, infos)`
activates the given site as the in-memory session. -/
def setSite (mm : MMSiteState) (id siteurl token : String) (infos : SiteInfo) :
    MMSiteState :=
  { mm with active := some ⟨id, siteurl, token, infos⟩ }

/-- Embedding of `isValidMoodleVersion(sitefunctions)` (ws.js lines
537-544): some advertised function name contains `"component_strings"`
(`indexOf("component_strings") > -1`). -/
def isValidMoodleVersion (sitefunctions : List SiteFunction) : Bool :=
  sitefunctions.any (fun f => strHasSub f.name "component_strings")

/-- Embedding of `newSite(siteurl, token)` (ws.js lines 474-497).
`fetchSiteInfo` is the outcome of the `$mmSite.fetchSiteInfo()` RPC
(metadata fetch over the candidate session), supplied by the environment.
The result carries the settled promise, the persistent store after the
call and the `$mmSite` state after the call. -/
def newSite (md5 : String → String) (siteurl token : String)
    (fetchSiteInfo : Except String SiteInfo) (db : SitesDB) (mm : MMSiteState) :
    JSSettle Unit × SitesDB × MMSiteState :=
  let mm1 := setCandidateSite mm siteurl token
  match fetchSiteInfo with
  | .error err => (.rejected err, db, deleteCandidateSite mm1)
  | .ok infos =>
    if isValidMoodleVersion infos.functions then
      let siteid := md5 (siteurl ++ infos.username)
      let db1 := addSite db siteid siteurl token infos
      let mm2 := setSite mm1 siteid siteurl token infos
      let db2 := login db1 siteid
      (.resolved (), db2, mm2)
    else
      (.rejected "mm.login.invalidmoodleversion", db, deleteCandidateSite mm1)

/-- Embedding of `loadSite(siteid)` (ws.js lines 575-581): read the record
from the `sites` store, reactivate it via `$mmSite.setSite` and upsert the
current-site pointer via `login`.  A missing key makes the `db.get`
promise fail, which propagates as a rejection. -/
def loadSite (db : SitesDB) (siteid : String) (mm : MMSiteState) :
    JSSettle Unit × SitesDB × MMSiteState :=
  match dbGetSite db.sites siteid with
  | none => (.rejected "dbgetfailed", db, mm)
  | some site =>
    (.resolved (), login db siteid, setSite mm siteid site.siteurl site.token site.infos)

/-- Embedding of `getSiteURL(siteid)` (ws.js lines 786-800).  `currentURL`
is `$mmSite.getURL()` (possibly `undefined`, modelled as `none`); an
unknown `siteid` resolves with `undefined` (`none`) because the `db.get`
failure callback resolves the deferred with `undefined`. -/
def getSiteURL (db : SitesDB) (currentURL : Option String) (siteid : Option String) :
    JSSettle (Option String) :=
  match siteid with
  | none => .resolved currentURL
  | some sid =>
    match dbGetSite db.sites sid with
    | some site => .resolved (some site.siteurl)
    | none => .resolved none

/-! ### `call` response handling (ws.js lines 44-116) -/

/-- Decoded JSON body of a web-service response (`data.data` of the `$http`
response): the fields inspected by `call`, or `none` at the `Option` layer
when the body is absent or falsy (`null`, empty). -/
structure WSBody where
  exception : Option String
  errorcode : Option String
  message : String
  debuginfo : Option String
deriving DecidableEq

/-- The resolved `$http` response wrapper; its `data` field holds the
decoded body (`none` models a falsy body). -/
structure HttpResp where
  body : Option WSBody
deriving DecidableEq

/-- JavaScript `!data` applied to a resolved `$http` response object: a
resolved response is always an object, hence never falsy. -/
def respFalsy (_ : HttpResp) : Bool := false

/-- Environment of one `call`: the `$cordovaNetwork.isOffline()` probe
(`none` models the probe throwing, which the source catches and ignores)
and the transport outcome of the POST (`none` models transport failure,
the second callback of `$http.post(...).then`). -/
structure CallEnv where
  offline : Option Bool
  post : Option HttpResp
deriving DecidableEq

/-- The `preSets` argument of `call`; `wstoken` and `siteurl` are `none`
when the corresponding property is undefined, and `responseExpected` is
the truthiness of `preSets.responseExpected`. -/
structure PreSets where
  wstoken : Option String
  siteurl : Option String
  responseExpected : Bool
deriving DecidableEq

/-- Settled outcome of `call`, at the granularity needed by the response
handling: the resolved value is the (cloned) decoded body. -/
inductive CallOutcome where
  | resolved (body : WSBody)
  | rejected (err : String)
deriving DecidableEq

/-- The blank object created by the `data = {}` branch of `call` (ws.js
line 75): no `exception`, no `errorcode`, no `debuginfo`, undefined
`message` (modelled as the empty string). -/
def blankBody : WSBody := ⟨none, none, "", none⟩

/-- Embedding of the response handling of `call(method, data, preSets)`
(ws.js lines 44-116).  The guard of ws.js line 74 is
`!data && !data.data && !preSets.responseExpected` where `data` is the
resolved `$http` response object: the first conjunct (`respFalsy`) is
always false, so the blank-object tolerance branch is dead and an absent
body always falls through to the `!data` rejection of ws.js lines 80-83. -/
def call (env : CallEnv) (preSets : Option PreSets) : CallOutcome :=
  match preSets with
  | none => .rejected "mm.core.unexpectederror"
  | some ps =>
    if ps.wstoken = none ∨ ps.siteurl = none then .rejected "mm.core.unexpectederror"
    else if env.offline = some true then .rejected "mm.core.networkerrormsg"
    else
      match env.post with
      | none => .rejected "mm.core.cannotconnect"
      | some resp =>
        let data : Option WSBody :=
          if respFalsy resp && resp.body.isNone && !ps.responseExpected then some blankBody
          else resp.body
        match data with
        | none => .rejected "mm.core.cannotconnect"
        | some b =>
          match b.exception with
          | some _ =>
            if b.errorcode = some "invalidtoken" ∨ b.errorcode = some "accessexception" then
              .rejected "mm.core.lostconnection"
            else .rejected b.message
          | none =>
            match b.debuginfo with
            | some _ => .rejected ("Error. " ++ b.message)
            | none => .resolved b

/-! ### `call` request construction: `convertValuesToString` (ws.js lines
125-138), the `wsfunction`/`wstoken` assignments (ws.js lines 63-64) and
`angular.copy` (ws.js line 109).

JavaScript objects are modelled as trees whose object/array nodes carry a
node identity (the allocation counter value at which the node was
created); scalar property values carry no identity.  Two trees share
structure exactly when they share a node identity, so mutating an object
can affect another object only when their trees share an identity. -/

/-- A JavaScript scalar value as found in `call`'s argument objects. -/
inductive Scalar where
  | str (s : String)
  | num (n : Int)
  | bool (b : Bool)
  | nullv
deriving DecidableEq

/-- JavaScript `v + ''` on a scalar. -/
def jsToString : Scalar → String
  | .str s => s
  | .num n => toString n
  | .bool b => if b then "true" else "false"
  | .nullv => "null"

/-- A JavaScript value tree: a scalar, or an object/array node carrying
its node identity, an is-array tag and its enumerable properties in
enumeration order. -/
inductive JTree where
  | prim (v : Scalar)
  | node (id : Nat) (isArr : Bool) (fields : List (String × JTree))

/-- Worker of `convertValuesToString` over the property list of an object:
`for (var el in data)`, recursing on object-valued properties
(`angular.isObject(data[el])`) and stringifying the rest
(`result[el] = data[el] + ''`).  `c` is the allocation counter; every
container created by the conversion receives a fresh identity taken from
the counter. -/
def convertFieldsVTS (c : Nat) : List (String × JTree) → Nat × List (String × JTree)
  | [] => (c, [])
  | (k, .prim v) :: rest =>
    let r := convertFieldsVTS c rest
    (r.1, (k, .prim (.str (jsToString v))) :: r.2)
  | (k, .node _ a gs) :: rest =>
    let g := convertFieldsVTS (c + 1) gs
    let r := convertFieldsVTS g.1 rest
    (r.1, (k, .node c a g.2) :: r.2)

/-- Embedding of `convertValuesToString(data)` (ws.js lines 125-138) for an
object or array argument: a fresh container is allocated (`result = []`,
or `result = {}` for a non-array object, so the is-array tag of the input
is preserved) and the converted properties are written into it. -/
def convertValuesToString (c : Nat) (isArr : Bool) (fs : List (String × JTree)) :
    Nat × JTree :=
  let r := convertFieldsVTS (c + 1) fs
  (r.1, .node c isArr r.2)

/-- The node identities occurring in a property list (for an object tree
`t`, `treeIds t` below). -/
def fieldsIds : List (String × JTree) → List Nat
  | [] => []
  | (_, .prim _) :: rest => fieldsIds rest
  | (_, .node i _ gs) :: rest => i :: (fieldsIds gs ++ fieldsIds rest)

/-- The node identities occurring in a value tree. -/
def treeIds : JTree → List Nat
  | .prim _ => []
  | .node i _ gs => i :: fieldsIds gs

/-- JavaScript property assignment on a property list: replace the value
of an existing key, else append the new property. -/
def setFieldList (fs : List (String × JTree)) (k : String) (v : JTree) :
    List (String × JTree) :=
  match fs with
  | [] => [(k, v)]
  | (k1, v1) :: rest =>
    if k1 = k then (k1, v) :: rest else (k1, v1) :: setFieldList rest k v

/-- JavaScript property assignment `t[k] = v` on a value (no effect on a
scalar, which cannot carry properties usefully here). -/
def setField (t : JTree) (k : String) (v : JTree) : JTree :=
  match t with
  | .prim s => .prim s
  | .node i a fs => .node i a (setFieldList fs k v)

/-- JavaScript property read on a property list. -/
def getFieldList (fs : List (String × JTree)) (k : String) : Option JTree :=
  match fs with
  | [] => none
  | (k1, v1) :: rest => if k1 = k then some v1 else getFieldList rest k

/-- JavaScript property read `t[k]`. -/
def getField (t : JTree) (k : String) : Option JTree :=
  match t with
  | .prim _ => none
  | .node _ _ fs => getFieldList fs k

/-- The request object sent by `call` (ws.js lines 49, 63-64, 67): the
stringified copy of the caller's data, which then receives the
`wsfunction` and `wstoken` properties (`data.wsfunction = method;
data.wstoken = preSets.wstoken;`). -/
def buildWSRequest (c : Nat) (isArr : Bool) (fs : List (String × JTree))
    (method wstoken : String) : JTree :=
  setField (setField (convertValuesToString c isArr fs).2 "wsfunction" (.prim (.str method)))
    "wstoken" (.prim (.str wstoken))

/-- Worker of `angular.copy` over a property list: every container of the
copy is freshly allocated. -/
def copyFields (c : Nat) : List (String × JTree) → Nat × List (String × JTree)
  | [] => (c, [])
  | (k, .prim v) :: rest =>
    let r := copyFields c rest
    (r.1, (k, .prim v) :: r.2)
  | (k, .node _ a gs) :: rest =>
    let g := copyFields (c + 1) gs
    let r := copyFields g.1 rest
    (r.1, (k, .node c a g.2) :: r.2)

/-- Embedding of `angular.copy(data)` (ws.js line 109): a deep copy in
which every container is freshly allocated, so the copy shares no node
with the original. -/
def angularCopy (c : Nat) : JTree → Nat × JTree
  | .prim v => (c, .prim v)
  | .node _ a gs =>
    let g := copyFields (c + 1) gs
    (g.1, .node c a g.2)

/-! ### `validateBrowserSSOLogin` (login module, lines 279-316) -/

/-- The transient SSO launch state stored in `$mmConfig` under the
`mmLoginLaunchSiteURL` and `mmLoginLaunchPassport` keys; `none` means the
key is absent (its read rejects). -/
structure SSOConfig where
  launchSiteURL : Option String
  launchPassport : Option String
deriving DecidableEq

/-- The site data returned by a successful SSO validation
(`{siteurl, token}`). -/
structure SSOSiteData where
  siteurl : String
  token : String
deriving DecidableEq

/-- Embedding of the scheme toggle of `validateBrowserSSOLogin` (login
module, lines 295-299): `https` URLs have their first `https://` replaced
by `http://`; all other URLs have their first `http://` (if any) replaced
by `https://`. -/
def toggleScheme (u : String) : String :=
  if strHasSub u "https://" then replaceFirst u "https://" "http://"
  else replaceFirst u "http://" "https://"

/-- Embedding of `validateBrowserSSOLogin(url)` (login module, lines
279-316).  `md5` is the `md5.createHash` collaborator.  The payload is
split on `":::"`; when both stored launch values are present they are
deleted before the signature is checked (single-use), the expected
signature is the keyed hash of the stored URL and passport, recomputed
once over the scheme-toggled URL on mismatch, and a final mismatch rejects
with the translated `mm.core.unexpectederror` message.  A missing stored
value makes the corresponding `$mmConfig.get` reject before anything is
deleted.  JavaScript yields `undefined` for a missing `params[1]`; the
model uses `""` (the claims only concern payloads of the form
`signature:::token`). -/
def validateBrowserSSOLogin (md5 : String → String) (cfg : SSOConfig) (url : String) :
    JSSettle SSOSiteData × SSOConfig :=
  let params := jsSplit url ":::"
  match cfg.launchSiteURL, cfg.launchPassport with
  | some launchSiteURL, some passport =>
    let cfg1 : SSOConfig := ⟨none, none⟩
    let signature := md5 (launchSiteURL ++ passport)
    let launchSiteURL2 :=
      if signature = params.getD 0 "" then launchSiteURL else toggleScheme launchSiteURL
    let signature2 :=
      if signature = params.getD 0 "" then signature else md5 (launchSiteURL2 ++ passport)
    if signature2 = params.getD 0 "" then
      (.resolved ⟨launchSiteURL2, params.getD 1 ""⟩, cfg1)
    else
      (.rejected "mm.core.unexpectederror", cfg1)
  | _, _ => (.rejected "configgetfailed", cfg)

/-! ### `getMoodleFilePath` (ws.js lines 668-726) -/

/-- Environment of `getMoodleFilePath`: the `$mmUtil.fixPluginfileURL`
collaborator (not part of the excerpt; a pure computation of the remote
download URL from the file URL and the site token), the `md5.createHash`
collaborator, the `$mmFS.getFile` cache probe (`some internalURL` when the
file is already downloaded, `none` when the probe rejects),
`$cordovaNetwork.isOnline()` (`none` models the call throwing, which the
source catches), and the `downloadFile` collaborator (`some internalURL`
on success, `none` on failure). -/
structure FileEnv where
  fixPluginfileURL : String → String → String
  md5 : String → String
  getFile : String → Option String
  online : Option Bool
  download : String → String → Option String

/-- The local cache path computed by `getMoodleFilePath` (ws.js lines
689-699): extension taken after the last dot (suppressed for `.php`
URLs), file name the hash of the URL, under `siteId/courseId`.  A falsy
`courseId` defaults to `1` (ws.js lines 675-677). -/
def localCachePath (env : FileEnv) (fileurl courseId siteId : String) : String :=
  let courseIdV := if courseId = "" then "1" else courseId
  let extension0 := "." ++ (jsSplit fileurl ".").getLastD ""
  let extension := if strStartsWith extension0 ".php" then "" else extension0
  let filename := env.md5 fileurl ++ extension
  siteId ++ "/" ++ courseIdV ++ "/" ++ filename

/-- Embedding of `getMoodleFilePath(fileurl, courseId, siteId)` (ws.js
lines 668-726).  `currentSiteId` is `$mmSite.getId()`.  The second
component records the `(url, path)` download attempts made by the call. -/
def getMoodleFilePath (env : FileEnv) (db : SitesDB) (currentSiteId : Option String)
    (fileurl courseId siteId : String) :
    JSSettle String × List (String × String) :=
  if fileurl = "" then (.rejected "", [])
  else
    let siteIdRes : Option String :=
      if siteId = "" then currentSiteId else some siteId
    match siteIdRes with
    | none => (.rejected "", [])
    | some siteIdV =>
      match dbGetSite db.sites siteIdV with
      | none => (.rejected "dbgetfailed", [])
      | some site =>
        let downloadURL := env.fixPluginfileURL fileurl site.token
        let pathFile := localCachePath env fileurl courseId siteIdV
        match env.getFile pathFile with
        | some internalURL => (.resolved internalURL, [])
        | none =>
          match env.online with
          | some true =>
            match env.download downloadURL pathFile with
            | some internalURL => (.resolved internalURL, [(downloadURL, pathFile)])
            | none => (.resolved downloadURL, [(downloadURL, pathFile)])
          | some false => (.resolved downloadURL, [])
          | none => (.resolved downloadURL, [])

/-!
## Theorems
-/

/-- C10: for every `siteid` argument, `getSiteURL` never rejects: with
`siteid` undefined it resolves with the current site's URL, with a stored
`siteid` it resolves with that site's URL, and with an unknown `siteid` it
resolves with `undefined` (`none`) rather than an error. -/
theorem getSiteURL_never_rejects (db : SitesDB) (currentURL : Option String)
    (siteid : Option String) :
    getSiteURL db currentURL siteid =
      .resolved (match siteid with
        | none => currentURL
        | some sid => (dbGetSite db.sites sid).map SiteRecord.siteurl) := by
  cases siteid with
  | none => rfl
  | some sid => cases h : dbGetSite db.sites sid <;> simp [getSiteURL, h]

/-- Concrete `getUserToken` environment on which the token endpoint
reports the `requirecorrectaccess` error code. -/
def gutBugEnv : GUTEnv where
  services := fun _ => none
  wsservice := some "moodle_mobile_app"
  endpoint := fun _ _ _ _ => .ok none (some "Wrong access error") (some "requirecorrectaccess")

/-- C3: on a first-attempt `requirecorrectaccess` error the source reaches
`logindata.siteurl = siteurl;` (ws.js line 445) with `logindata` declared
nowhere, so it throws a `ReferenceError` inside the success callback
instead of retrying with the `www.`-prefixed host: the call crashes and no
retry request is ever issued, contradicting the claimed single retry. -/
theorem getUserToken_requirecorrectaccess_crashes :
    getUserToken gutBugEnv "https://example.org" "student" "pw" false = .crash := rfl

/-- Concrete `call` environment: the device is online and the transport
succeeds with an absent (`null`) response body. -/
def emptyBodyEnv : CallEnv := ⟨some false, some ⟨none⟩⟩

/-- C7: a transport-success with an empty body is rejected even though the
caller declared `responseExpected` false.  The tolerance guard of ws.js
line 74 (`!data && !data.data && !preSets.responseExpected`) tests the
always-truthy `$http` response wrapper, so the blank-object branch the
comment above it describes is unreachable and the call falls through to
the `cannotconnect` rejection of ws.js lines 80-83. -/
theorem call_empty_body_rejects_despite_no_response_expected :
    call emptyBodyEnv (some ⟨some "token", some "https://example.org", false⟩) =
      .rejected "mm.core.cannotconnect" ∧
    call emptyBodyEnv (some ⟨some "token", some "https://example.org", false⟩) ≠
      .resolved blankBody := by
  exact ⟨rfl, by decide⟩

/-- Capability-probe environment whose endpoint answers successfully but
without a `code` field. -/
def probeNoCodeEnv : ProbeEnv := ⟨some "local_mobile", fun _ => some ⟨none, false⟩⟩

/-- C5 counterexample: a transport-success capability response lacking the
`code` field does not resolve to AuthCode 0 — `checkMobileLocalPlugin`
rejects with `mm.core.unexpectederror` (ws.js lines 366-369). -/
theorem checkMobileLocalPlugin_missing_code_rejects :
    (checkMobileLocalPlugin probeNoCodeEnv (fun _ => none) "https://example.org").1 =
      .rejected "mm.core.unexpectederror" ∧
    (checkMobileLocalPlugin probeNoCodeEnv (fun _ => none) "https://example.org").1 ≠
      .resolved 0 := by
  exact ⟨rfl, by decide⟩

/-- C5 (amended): a transport-level failure of the capability probe, and a
failure to read the configured service name, resolve to AuthCode 0 rather
than rejecting; a transport-success response lacking the `code` field,
however, rejects with `mm.core.unexpectederror`. -/
theorem checkMobileLocalPlugin_degrades_to_zero (env : ProbeEnv)
    (services : String → Option String) (siteurl : String)
    (h : env.checkEndpoint siteurl = none ∨ env.wsextservice = none) :
    (checkMobileLocalPlugin env services siteurl).1 = .resolved 0 := by
  rcases h with h | h
  · cases hw : env.wsextservice <;> simp [checkMobileLocalPlugin, hw, h]
  · simp [checkMobileLocalPlugin, h]

/-- Witness for the amended C5 theorem at a concrete transport failure. -/
theorem checkMobileLocalPlugin_degrades_to_zero_witness :
    (checkMobileLocalPlugin ⟨some "local_mobile", fun _ => none⟩ (fun _ => none)
      "https://example.org").1 = .resolved 0 :=
  checkMobileLocalPlugin_degrades_to_zero _ _ _ (Or.inl rfl)

/-- C1: `newSite` performs no write to the persistent site store (neither
the `sites` collection nor the current-site pointer) unless the metadata
fetch succeeded and the function-list validation passed: a failed fetch
rejects with the upstream error and leaves the store untouched, and
metadata whose function list has no name containing `"component_strings"`
rejects with `mm.login.invalidmoodleversion` and leaves the store
untouched. -/
theorem newSite_no_persist_without_component_strings (md5 : String → String)
    (siteurl token : String) (db : SitesDB) (mm : MMSiteState) :
    (∀ e, (newSite md5 siteurl token (.error e) db mm).2.1 = db ∧
          (newSite md5 siteurl token (.error e) db mm).1 = .rejected e) ∧
    (∀ infos : SiteInfo,
      (∀ f ∈ infos.functions, strHasSub f.name "component_strings" = false) →
      (newSite md5 siteurl token (.ok infos) db mm).2.1 = db ∧
      (newSite md5 siteurl token (.ok infos) db mm).1 =
        .rejected "mm.login.invalidmoodleversion") := by
  refine ⟨fun e => ⟨rfl, rfl⟩, fun infos h => ?_⟩
  have hv : isValidMoodleVersion infos.functions = false := by
    simp only [isValidMoodleVersion, List.any_eq_false]
    intro f hf
    simp [h f hf]
  simp [newSite, hv]

/-- Witness for C1: metadata advertising only `core_course_get_contents`
is rejected and the store is unchanged. -/
theorem newSite_no_persist_without_component_strings_witness :
    (newSite (fun s => s) "https://example.org" "tok"
        (.ok ⟨"student", [⟨"core_course_get_contents"⟩]⟩) ⟨[], none⟩ ⟨none, none⟩).2.1 =
      (⟨[], none⟩ : SitesDB) ∧
    (newSite (fun s => s) "https://example.org" "tok"
        (.ok ⟨"student", [⟨"core_course_get_contents"⟩]⟩) ⟨[], none⟩ ⟨none, none⟩).1 =
      .rejected "mm.login.invalidmoodleversion" :=
  (newSite_no_persist_without_component_strings _ _ _ _ _).2 _ (by decide)

/-- Looking up the key of a freshly upserted record returns exactly that
record. -/
theorem dbGetSite_insert (sites : List SiteRecord) (r : SiteRecord) :
    dbGetSite (dbInsertSite sites r) r.id = some r := by
  simp [dbGetSite, dbInsertSite, List.find?_cons]

/-- Upserting the same record twice leaves the `sites` collection as after
the first upsert. -/
theorem dbInsertSite_idem (sites : List SiteRecord) (r : SiteRecord) :
    dbInsertSite (dbInsertSite sites r) r = dbInsertSite sites r := by
  simp [dbInsertSite, List.filter_cons, List.filter_filter]

/-- C6: after a successful `newSite`, the persisted record under the id
`md5(siteurl + username)` is exactly `{id, siteurl, token, infos}`, the
current-site pointer and the active session hold that same site, and
`loadSite` of that id reactivates an identical record (same id, url,
token and metadata) and re-points the current site at it; re-registering
the same account (`newSite` again with the same url and username) leaves
the `sites` collection unchanged, in particular it yields the same id. -/
theorem newSite_loadSite_roundtrip (md5 : String → String) (siteurl token : String)
    (infos : SiteInfo) (db : SitesDB) (mm mm2 : MMSiteState)
    (hvalid : isValidMoodleVersion infos.functions = true) :
    (newSite md5 siteurl token (.ok infos) db mm).1 = .resolved () ∧
    (newSite md5 siteurl token (.ok infos) db mm).2.1.currentSite =
      some (md5 (siteurl ++ infos.username)) ∧
    dbGetSite (newSite md5 siteurl token (.ok infos) db mm).2.1.sites
        (md5 (siteurl ++ infos.username)) =
      some ⟨md5 (siteurl ++ infos.username), siteurl, token, infos⟩ ∧
    (newSite md5 siteurl token (.ok infos) db mm).2.2.active =
      some ⟨md5 (siteurl ++ infos.username), siteurl, token, infos⟩ ∧
    (loadSite (newSite md5 siteurl token (.ok infos) db mm).2.1
        (md5 (siteurl ++ infos.username)) mm2).1 = .resolved () ∧
    (loadSite (newSite md5 siteurl token (.ok infos) db mm).2.1
        (md5 (siteurl ++ infos.username)) mm2).2.2.active =
      some ⟨md5 (siteurl ++ infos.username), siteurl, token, infos⟩ ∧
    (loadSite (newSite md5 siteurl token (.ok infos) db mm).2.1
        (md5 (siteurl ++ infos.username)) mm2).2.1.currentSite =
      some (md5 (siteurl ++ infos.username)) ∧
    (newSite md5 siteurl token (.ok infos)
        (newSite md5 siteurl token (.ok infos) db mm).2.1 mm).2.1.sites =
      (newSite md5 siteurl token (.ok infos) db mm).2.1.sites := by
  have hget := dbGetSite_insert db.sites
    ⟨md5 (siteurl ++ infos.username), siteurl, token, infos⟩
  have hidem := dbInsertSite_idem db.sites
    ⟨md5 (siteurl ++ infos.username), siteurl, token, infos⟩
  simp [newSite, hvalid, addSite, login, loadSite, setSite, hget, hidem]

/-- Witness for C6 at a concrete account whose metadata advertises a
`component_strings` function. -/
theorem newSite_loadSite_roundtrip_witness :
    (newSite (fun s => s) "https://example.org" "tok"
        (.ok ⟨"student", [⟨"tool_mobile_get_component_strings"⟩]⟩) ⟨[], none⟩
        ⟨none, none⟩).1 = .resolved () ∧
    dbGetSite (newSite (fun s => s) "https://example.org" "tok"
        (.ok ⟨"student", [⟨"tool_mobile_get_component_strings"⟩]⟩) ⟨[], none⟩
        ⟨none, none⟩).2.1.sites "https://example.orgstudent" =
      some ⟨"https://example.orgstudent", "https://example.org", "tok",
        ⟨"student", [⟨"tool_mobile_get_component_strings"⟩]⟩⟩ ∧
    (loadSite (newSite (fun s => s) "https://example.org" "tok"
        (.ok ⟨"student", [⟨"tool_mobile_get_component_strings"⟩]⟩) ⟨[], none⟩
        ⟨none, none⟩).2.1 "https://example.orgstudent" ⟨none, none⟩).2.2.active =
      some ⟨"https://example.orgstudent", "https://example.org", "tok",
        ⟨"student", [⟨"tool_mobile_get_component_strings"⟩]⟩⟩ := by
  have h := newSite_loadSite_roundtrip (fun s => s) "https://example.org" "tok"
    ⟨"student", [⟨"tool_mobile_get_component_strings"⟩]⟩ ⟨[], none⟩ ⟨none, none⟩
    ⟨none, none⟩ (by decide)
  exact ⟨h.1, h.2.2.1, h.2.2.2.2.2.1⟩

/-- Replacing the scheme of an `https` URL substitutes the protocol for
the `https://` prefix. -/
theorem replaceProtocol_https (u p : String) :
    replaceProtocol ("https://" ++ u) p = p ++ u := rfl

/-- A URL that already carries the `https` scheme is left unchanged by the
normalization. -/
theorem formatURL_https (u : String) :
    formatURL ("https://" ++ u) = "https://" ++ u := rfl

/-- A URL carrying no scheme is normalized by prefixing `https://`. -/
theorem formatURL_noscheme (url : String)
    (h1 : caseInsensPrefix "https://".data url.data = false)
    (h2 : caseInsensPrefix "http://".data url.data = false) :
    formatURL url = "https://" ++ url := by
  simp [formatURL, h1, h2]

/-- An `https` URL starts with `https://`. -/
theorem strStartsWith_https_self (u : String) :
    strStartsWith ("https://" ++ u) "https://" = true := rfl

/-- An `http` URL does not start with `https://`. -/
theorem strStartsWith_http_not_https (u : String) :
    strStartsWith ("http://" ++ u) "https://" = false := rfl

/-- Unfolding of `checkSite` on a scheme-less URL whose `https` HEAD probe
fails: for any fuel at least 2 the call probes exactly
`https://url` then `http://url` and settles on the `http` attempt. -/
theorem checkSite_key (env : CSEnv) (services : String → Option String) (url : String)
    (h1 : caseInsensPrefix "https://".data url.data = false)
    (h2 : caseInsensPrefix "http://".data url.data = false)
    (hgate : strHasSub ("https://" ++ url) "://localhost" = true ∨
             env.isValidURL ("https://" ++ url) = true)
    (hfail : env.probe ("https://" ++ url) = false) :
    ∀ m, checkSite env services (m + 2) url none =
      (if env.probe ("http://" ++ url) then
        (match (checkMobileLocalPlugin env.plugin services ("http://" ++ url)).1 with
          | .resolved code => CSResult.resolved ("http://" ++ url) code
          | .rejected e => CSResult.rejected e,
         ["https://" ++ url, "http://" ++ url])
      else
        (.rejected "mm.core.cannotconnect", ["https://" ++ url, "http://" ++ url])) := by
  intro m
  have hcond : (!(strHasSub ("https://" ++ url) "://localhost") &&
      !(env.isValidURL ("https://" ++ url))) = false := by
    rcases hgate with h | h <;> simp [h]
  have hrepl1 : replaceProtocol ("https://" ++ url) "https://" = "https://" ++ url :=
    replaceProtocol_https url "https://"
  have hrepl2 : replaceProtocol ("https://" ++ url) "http://" = "http://" ++ url :=
    replaceProtocol_https url "http://"
  simp only [checkSite, formatURL_noscheme url h1 h2, hcond, Bool.false_eq_true, if_false,
    Option.getD, hrepl1, hrepl2, hfail, strStartsWith_https_self, if_true,
    formatURL_https, strStartsWith_http_not_https]
  cases hp : env.probe ("http://" ++ url) <;>
    cases hres : (checkMobileLocalPlugin env.plugin services ("http://" ++ url)).1 <;>
      simp [hp, hres]

/-- C4: a scheme-less URL is normalized to `https`; when the HEAD probe of
the `https` URL fails, `checkSite` retries exactly once with `http` (the
probe log is exactly `[https-url, http-url]`), surfaces
`mm.core.cannotconnect` only when that single `http` retry also fails, and
performs no further fallback (the outcome is the same for every fuel
bound of at least 2). -/
theorem checkSite_https_fallback_once (env : CSEnv) (services : String → Option String)
    (url : String)
    (h1 : caseInsensPrefix "https://".data url.data = false)
    (h2 : caseInsensPrefix "http://".data url.data = false)
    (hgate : strHasSub ("https://" ++ url) "://localhost" = true ∨
             env.isValidURL ("https://" ++ url) = true)
    (hfail : env.probe ("https://" ++ url) = false) :
    (checkSite env services 2 url none).2 = ["https://" ++ url, "http://" ++ url] ∧
    (env.probe ("http://" ++ url) = false →
      (checkSite env services 2 url none).1 = .rejected "mm.core.cannotconnect") ∧
    (∀ code, env.probe ("http://" ++ url) = true →
      (checkMobileLocalPlugin env.plugin services ("http://" ++ url)).1 = .resolved code →
      (checkSite env services 2 url none).1 = .resolved ("http://" ++ url) code) ∧
    (∀ n, checkSite env services (n + 2) url none = checkSite env services 2 url none) := by
  have key := checkSite_key env services url h1 h2 hgate hfail
  refine ⟨?_, ?_, ?_, ?_⟩
  · rw [key 0]; cases hp : env.probe ("http://" ++ url) <;> simp [hp]
  · intro hp; rw [key 0]; simp [hp]
  · intro code hp hres; rw [key 0]; simp [hp, hres]
  · intro n; rw [key n, key 0]

/-- Witness for C4 at `moodle.example.org` with an environment reachable
only over `http`. -/
theorem checkSite_https_fallback_once_witness :
    (checkSite ⟨fun _ => true, fun u => charsPrefix "http://".data u.data, ⟨none, fun _ => none⟩⟩
        (fun _ => none) 2 "moodle.example.org" none).2 =
      ["https://" ++ "moodle.example.org", "http://" ++ "moodle.example.org"] ∧
    (checkSite ⟨fun _ => true, fun u => charsPrefix "http://".data u.data, ⟨none, fun _ => none⟩⟩
        (fun _ => none) 2 "moodle.example.org" none).1 =
      .resolved ("http://" ++ "moodle.example.org") 0 := by
  have h := checkSite_https_fallback_once
    ⟨fun _ => true, fun u => charsPrefix "http://".data u.data, ⟨none, fun _ => none⟩⟩
    (fun _ => none) "moodle.example.org" (by decide) (by decide) (Or.inr rfl) (by decide)
  exact ⟨h.1, h.2.2.1 0 (by decide) rfl⟩

/-- C2: with a stored PendingLaunchState (launch URL `u`, passport `p`)
and a received payload `signature:::token`, the validator accepts exactly
when the signature is the keyed hash of `u ++ p` or of
`toggleScheme u ++ p`, resolving with the (possibly scheme-adjusted) URL
and the received token, and rejects otherwise; in every case both stored
values are deleted by the single validation attempt. -/
theorem validateBrowserSSOLogin_single_use_iff (md5 : String → String)
    (u p payload sig tok : String)
    (hsplit : jsSplit payload ":::" = [sig, tok]) :
    (validateBrowserSSOLogin md5 ⟨some u, some p⟩ payload).2 = ⟨none, none⟩ ∧
    ((∃ r, (validateBrowserSSOLogin md5 ⟨some u, some p⟩ payload).1 = .resolved r) ↔
      (sig = md5 (u ++ p) ∨ sig = md5 (toggleScheme u ++ p))) ∧
    (sig = md5 (u ++ p) →
      (validateBrowserSSOLogin md5 ⟨some u, some p⟩ payload).1 = .resolved ⟨u, tok⟩) ∧
    (sig ≠ md5 (u ++ p) → sig = md5 (toggleScheme u ++ p) →
      (validateBrowserSSOLogin md5 ⟨some u, some p⟩ payload).1 =
        .resolved ⟨toggleScheme u, tok⟩) ∧
    (sig ≠ md5 (u ++ p) → sig ≠ md5 (toggleScheme u ++ p) →
      (validateBrowserSSOLogin md5 ⟨some u, some p⟩ payload).1 =
        .rejected "mm.core.unexpectederror") := by
  by_cases h1 : md5 (u ++ p) = sig
  · have hout : validateBrowserSSOLogin md5 ⟨some u, some p⟩ payload =
        (.resolved ⟨u, tok⟩, ⟨none, none⟩) := by
      simp [validateBrowserSSOLogin, hsplit, h1]
    refine ⟨by rw [hout], ⟨fun _ => Or.inl h1.symm, fun _ => ⟨⟨u, tok⟩, by rw [hout]⟩⟩,
      fun _ => by rw [hout], fun hne _ => absurd h1.symm hne,
      fun hne _ => absurd h1.symm hne⟩
  · by_cases h2 : md5 (toggleScheme u ++ p) = sig
    · have hout : validateBrowserSSOLogin md5 ⟨some u, some p⟩ payload =
          (.resolved ⟨toggleScheme u, tok⟩, ⟨none, none⟩) := by
        simp [validateBrowserSSOLogin, hsplit, h1, h2]
      refine ⟨by rw [hout], ⟨fun _ => Or.inr h2.symm,
        fun _ => ⟨⟨toggleScheme u, tok⟩, by rw [hout]⟩⟩,
        fun heq => absurd heq.symm h1, fun _ _ => by rw [hout],
        fun _ hne2 => absurd h2.symm hne2⟩
    · have hout : validateBrowserSSOLogin md5 ⟨some u, some p⟩ payload =
          (.rejected "mm.core.unexpectederror", ⟨none, none⟩) := by
        simp [validateBrowserSSOLogin, hsplit, h1, h2]
      refine ⟨by rw [hout], ⟨?_, ?_⟩, fun heq => absurd heq.symm h1,
        fun _ heq => absurd heq.symm h2, fun _ _ => by rw [hout]⟩
      · rintro ⟨r, hr⟩
        rw [hout] at hr
        exact absurd hr (by simp)
      · rintro (heq | heq)
        · exact absurd heq.symm h1
        · exact absurd heq.symm h2

/-- Witness for C2: with the identity as the keyed hash, the matching
signature for the stored `https` URL is accepted and the launch state is
cleared. -/
theorem validateBrowserSSOLogin_single_use_iff_witness :
    (validateBrowserSSOLogin (fun s => s) ⟨some "https://example.org", some "pass"⟩
        "https://example.orgpass:::thetoken").2 = ⟨none, none⟩ ∧
    (validateBrowserSSOLogin (fun s => s) ⟨some "https://example.org", some "pass"⟩
        "https://example.orgpass:::thetoken").1 =
      .resolved ⟨"https://example.org", "thetoken"⟩ := by
  have h := validateBrowserSSOLogin_single_use_iff (fun s => s) "https://example.org" "pass"
    "https://example.orgpass:::thetoken" "https://example.orgpass" "thetoken" (by decide)
  exact ⟨h.1, h.2.2.1 (by decide)⟩

/-- C8: for a non-empty `fileurl`, `courseId` and `siteId` of a stored
site, `getMoodleFilePath` while offline and with the file not in the
local cache resolves — never rejects — with the remote download URL
computed from the file URL and the site token, and attempts no download.
The embedding is a pure function of its arguments and mutates nothing, so
a second call with the same arguments returns the same remote URL, again
without any download attempt. -/
theorem getMoodleFilePath_offline_resolves_remote (env : FileEnv) (db : SitesDB)
    (currentSiteId : Option String) (fileurl courseId siteId : String) (site : SiteRecord)
    (hf : fileurl ≠ "") (hc : courseId ≠ "") (hs : siteId ≠ "")
    (hget : dbGetSite db.sites siteId = some site)
    (hcache : env.getFile (localCachePath env fileurl courseId siteId) = none)
    (hoffline : env.online = some false) :
    getMoodleFilePath env db currentSiteId fileurl courseId siteId =
      (.resolved (env.fixPluginfileURL fileurl site.token), []) := by
  simp [getMoodleFilePath, hf, hs, hget, hcache, hoffline]

/-- Witness for C8 at a concrete stored site with an empty cache and an
offline device. -/
theorem getMoodleFilePath_offline_resolves_remote_witness :
    getMoodleFilePath
        ⟨fun f t => f ++ "?token=" ++ t, fun s => s, fun _ => none, some false,
          fun _ _ => none⟩
        ⟨[⟨"site1", "https://example.org", "tok", ⟨"student", []⟩⟩], some "site1"⟩
        (some "site1") "https://example.org/file.png" "7" "site1" =
      (.resolved ("https://example.org/file.png" ++ "?token=" ++ "tok"), []) := by
  have h := getMoodleFilePath_offline_resolves_remote
    ⟨fun f t => f ++ "?token=" ++ t, fun s => s, fun _ => none, some false, fun _ _ => none⟩
    ⟨[⟨"site1", "https://example.org", "tok", ⟨"student", []⟩⟩], some "site1"⟩
    (some "site1") "https://example.org/file.png" "7" "site1"
    ⟨"site1", "https://example.org", "tok", ⟨"student", []⟩⟩
    (by decide) (by decide) (by decide) (by decide) rfl rfl
  exact h

/-- Every identity allocated by the stringifying conversion is at least
the starting counter, and the counter never decreases. -/
theorem convertFieldsVTS_lb : (c : Nat) → (fs : List (String × JTree)) →
    c ≤ (convertFieldsVTS c fs).1 ∧
      ∀ i ∈ fieldsIds (convertFieldsVTS c fs).2, c ≤ i
  | c, [] => by simp [convertFieldsVTS, fieldsIds]
  | c, (k, .prim v) :: rest => by
    have ih := convertFieldsVTS_lb c rest
    simpa [convertFieldsVTS, fieldsIds] using ih
  | c, (k, .node j a gs) :: rest => by
    have ih1 := convertFieldsVTS_lb (c + 1) gs
    have ih2 := convertFieldsVTS_lb (convertFieldsVTS (c + 1) gs).1 rest
    have hc1 : c ≤ (convertFieldsVTS (c + 1) gs).1 := le_trans (Nat.le_succ c) ih1.1
    refine ⟨?_, ?_⟩
    · simpa [convertFieldsVTS] using le_trans hc1 ih2.1
    · intro i hi
      simp only [convertFieldsVTS, fieldsIds, List.mem_cons, List.mem_append] at hi
      rcases hi with rfl | hi | hi
      · exact le_refl i
      · exact le_trans (Nat.le_succ c) (ih1.2 i hi)
      · exact le_trans hc1 (ih2.2 i hi)

/-- Every identity allocated by `angular.copy` is at least the starting
counter, and the counter never decreases; property-list worker. -/
theorem copyFields_lb : (c : Nat) → (fs : List (String × JTree)) →
    c ≤ (copyFields c fs).1 ∧ ∀ i ∈ fieldsIds (copyFields c fs).2, c ≤ i
  | c, [] => by simp [copyFields, fieldsIds]
  | c, (k, .prim v) :: rest => by
    have ih := copyFields_lb c rest
    simpa [copyFields, fieldsIds] using ih
  | c, (k, .node j a gs) :: rest => by
    have ih1 := copyFields_lb (c + 1) gs
    have ih2 := copyFields_lb (copyFields (c + 1) gs).1 rest
    have hc1 : c ≤ (copyFields (c + 1) gs).1 := le_trans (Nat.le_succ c) ih1.1
    refine ⟨?_, ?_⟩
    · simpa [copyFields] using le_trans hc1 ih2.1
    · intro i hi
      simp only [copyFields, fieldsIds, List.mem_cons, List.mem_append] at hi
      rcases hi with rfl | hi | hi
      · exact le_refl i
      · exact le_trans (Nat.le_succ c) (ih1.2 i hi)
      · exact le_trans hc1 (ih2.2 i hi)

/-- Every identity of an `angular.copy` result is at least the starting
counter. -/
theorem angularCopy_ids_lb (c : Nat) (t : JTree) :
    ∀ i ∈ treeIds (angularCopy c t).2, c ≤ i := by
  cases t with
  | prim v => simp [angularCopy, treeIds]
  | node j a gs =>
    intro i hi
    simp only [angularCopy, treeIds, List.mem_cons] at hi
    rcases hi with rfl | hi
    · exact le_refl i
    · exact le_trans (Nat.le_succ c) ((copyFields_lb (c + 1) gs).2 i hi)

/-- Assigning a scalar property introduces no new node identity. -/
theorem fieldsIds_setFieldList_prim (fs : List (String × JTree)) (k : String) (v : Scalar) :
    ∀ i ∈ fieldsIds (setFieldList fs k (.prim v)), i ∈ fieldsIds fs := by
  induction fs with
  | nil => simp [setFieldList, fieldsIds]
  | cons hd rest ih =>
    obtain ⟨k1, v1⟩ := hd
    by_cases hk : k1 = k
    · cases v1 with
      | prim w => simp [setFieldList, hk, fieldsIds]
      | node j a gs =>
        intro i hi
        simp only [setFieldList, hk, if_pos, fieldsIds] at hi
        simp [fieldsIds, hi]
    · cases v1 with
      | prim w =>
        intro i hi
        simp only [setFieldList, hk, if_neg, fieldsIds, not_false_iff] at hi
        simpa [fieldsIds] using ih i hi
      | node j a gs =>
        intro i hi
        simp only [setFieldList, hk, if_neg, fieldsIds, not_false_iff, List.mem_cons,
          List.mem_append] at hi
        rcases hi with rfl | hi | hi
        · simp [fieldsIds]
        · simp [fieldsIds, hi]
        · simp [fieldsIds, ih i hi]

/-- Reading a property just assigned returns the assigned value. -/
theorem getFieldList_setFieldList_same (fs : List (String × JTree)) (k : String) (v : JTree) :
    getFieldList (setFieldList fs k v) k = some v := by
  induction fs with
  | nil => simp [setFieldList, getFieldList]
  | cons hd rest ih =>
    obtain ⟨k1, v1⟩ := hd
    by_cases hk : k1 = k <;> simp [setFieldList, getFieldList, hk, ih]

/-- Assigning one property leaves the others readable unchanged. -/
theorem getFieldList_setFieldList_other (fs : List (String × JTree)) (k1 k2 : String)
    (v : JTree) (h : k1 ≠ k2) :
    getFieldList (setFieldList fs k2 v) k1 = getFieldList fs k1 := by
  induction fs with
  | nil => simp [setFieldList, getFieldList, Ne.symm h]
  | cons hd rest ih =>
    obtain ⟨ka, va⟩ := hd
    by_cases hk : ka = k2
    · subst hk
      simp [setFieldList, getFieldList, Ne.symm h]
    · by_cases hk1 : ka = k1 <;> simp [setFieldList, getFieldList, hk, hk1, ih, h]

/-- C9: the request object sent by `call` — the stringified copy of the
caller's data with the `wsfunction` and `wstoken` properties written into
it — shares no node identity with the caller-supplied data object (so
building and sending the request cannot mutate the caller's object, which
also never receives the `wsfunction`/`wstoken` properties), and the
`angular.copy` of the decoded response that `call` resolves with shares no
node identity with the response itself. -/
theorem call_request_and_copy_share_no_structure (c : Nat) (isArr : Bool)
    (fs : List (String × JTree)) (method wstoken : String) (c2 : Nat) (resp : JTree)
    (hdata : ∀ i ∈ fieldsIds fs, i < c) (hresp : ∀ i ∈ treeIds resp, i < c2) :
    (∀ i ∈ fieldsIds fs, i ∉ treeIds (buildWSRequest c isArr fs method wstoken)) ∧
    getField (buildWSRequest c isArr fs method wstoken) "wsfunction" =
      some (.prim (.str method)) ∧
    getField (buildWSRequest c isArr fs method wstoken) "wstoken" =
      some (.prim (.str wstoken)) ∧
    (∀ i ∈ treeIds resp, i ∉ treeIds (angularCopy c2 resp).2) := by
  have hconv := convertFieldsVTS_lb (c + 1) fs
  refine ⟨?_, ?_, ?_, ?_⟩
  · intro i hi hmem
    have hlt : i < c := hdata i hi
    simp only [buildWSRequest, convertValuesToString, setField, treeIds,
      List.mem_cons] at hmem
    rcases hmem with rfl | hmem
    · exact absurd hlt (lt_irrefl i)
    · have h1 := fieldsIds_setFieldList_prim
        (setFieldList (convertFieldsVTS (c + 1) fs).2 "wsfunction" (.prim (.str method)))
        "wstoken" (.str wstoken) i hmem
      have h2 := fieldsIds_setFieldList_prim (convertFieldsVTS (c + 1) fs).2
        "wsfunction" (.str method) i h1
      have := hconv.2 i h2
      omega
  · simp only [buildWSRequest, convertValuesToString, setField, getField]
    rw [getFieldList_setFieldList_other _ _ _ _ (by decide)]
    exact getFieldList_setFieldList_same _ _ _
  · simp only [buildWSRequest, convertValuesToString, setField, getField]
    exact getFieldList_setFieldList_same _ _ _
  · intro i hi hmem
    have := angularCopy_ids_lb c2 resp i hmem
    have := hresp i hi
    omega

/-- Witness for C9: the request object carries neither the identity `2`
of the caller's nested object nor omits the `wsfunction` property, and
the copy of a response with root identity `1` does not contain that
identity. -/
theorem call_request_and_copy_share_no_structure_witness :
    (2 : Nat) ∉ treeIds (buildWSRequest 5 false [("a", JTree.node 2 false [])] "m" "t") ∧
    getField (buildWSRequest 5 false [("a", JTree.node 2 false [])] "m" "t") "wsfunction" =
      some (.prim (.str "m")) ∧
    (1 : Nat) ∉ treeIds (angularCopy 3 (JTree.node 1 true [])).2 := by
  have h := call_request_and_copy_share_no_structure 5 false
    [("a", JTree.node 2 false [])] "m" "t" 3 (JTree.node 1 true [])
    (by simp [fieldsIds]) (by simp [treeIds, fieldsIds])
  exact ⟨h.1 2 (by simp [fieldsIds]), h.2.1, h.2.2.2 1 (by simp [treeIds, fieldsIds])⟩
